import Mathlib

/-!
Verification of the STYJ02YM vacuum integration
(`custom_components/vacuum-styj02ym/vacuum.py`, with the legacy variant in
`vacuum.py`).

The development shallowly embeds the pure translation logic of the
integration: the fan-speed codec, the run-state decoder, the mode-aware
command encoder (`async_start` / `async_pause` / `async_stop`), the zone and
point cleaning encoders, the `_try_command` fault barrier and the `update`
poll.  Python integers are modelled as `Int` (the values handled here are
small device codes and map coordinates, so no overflow modelling is needed),
Python strings as `String`, and the device transport as an explicit oracle
or outcome value.
-/

/-- A raw-command parameter: the protocol mixes integers and strings
(`set_zone` takes a count followed by underscore-joined entry strings). -/
inductive Val where
  | int (n : Int)
  | str (s : String)
deriving DecidableEq, Repr

/-! ## Decimal printing and parsing

Models of Python `str(int)` (used by `'_'.join(str(x) for x in ...)` in
`async_clean_zone`) and of the builtin `int(str)` conversion (used by
`async_set_fan_speed`).  `pyInt` models `int()` on an optionally
whitespace-padded, optionally signed decimal-digit string; Python's
digit-group underscores are not modelled. -/

/-- The decimal digit character for a value below 10 (model of how Python
renders one decimal digit). -/
def decDigitChar (d : Nat) : Char :=
  match d with
  | 0 => '0' | 1 => '1' | 2 => '2' | 3 => '3' | 4 => '4'
  | 5 => '5' | 6 => '6' | 7 => '7' | 8 => '8' | 9 => '9'
  | _ => '*'

/-- Fuel-driven most-significant-first decimal digit writer; with fuel at
least `n` it renders all digits of `n` (empty for `n = 0`). -/
def natToDigitsAux : Nat → Nat → List Char
  | 0, _ => []
  | fuel + 1, n =>
    if n = 0 then []
    else natToDigitsAux fuel (n / 10) ++ [decDigitChar (n % 10)]

/-- The decimal digit string of a natural number (model of Python
`str` on a non-negative integer). -/
def natToDecChars (m : Nat) : List Char :=
  if m ≠ 0 then natToDigitsAux m m else ['0']

/-- Model of Python `str` on an integer. -/
def intToDecString (n : Int) : String :=
  if n < 0 then ⟨'-' :: natToDecChars n.natAbs⟩ else ⟨natToDecChars n.toNat⟩

/-- Accumulate a most-significant-first decimal digit list into a value. -/
def pyFoldDigits (cs : List Char) : Nat :=
  cs.foldl (fun a c => 10 * a + (c.toNat - 48)) 0

/-- Parse a non-empty all-digit character list (the digit body accepted by
Python `int`). -/
def pyIntDigits (cs : List Char) : Option Nat :=
  if cs ≠ [] ∧ cs.all Char.isDigit then some (pyFoldDigits cs) else none

/-- Strip surrounding whitespace, as Python `int` does before parsing. -/
def pyStrip (cs : List Char) : List Char :=
  ((cs.dropWhile Char.isWhitespace).reverse.dropWhile Char.isWhitespace).reverse

/-- Parse an optional sign followed by digits. -/
def pyIntChars (cs : List Char) : Option Int :=
  match cs with
  | [] => none
  | c :: rest =>
    if c = '-' then (pyIntDigits rest).map (fun m : Nat => -(m : Int))
    else if c = '+' then (pyIntDigits rest).map (fun m : Nat => (m : Int))
    else (pyIntDigits (c :: rest)).map (fun m : Nat => (m : Int))

/-- Model of the Python builtin `int(s)` conversion used by
`async_set_fan_speed` (raising `ValueError` is modelled as `none`). -/
def pyInt (s : String) : Option Int :=
  pyIntChars (pyStrip s.data)

/-! ### Round-trip facts about the decimal writer and parser -/

theorem decDigitChar_isDigit {d : Nat} (h : d < 10) :
    (decDigitChar d).isDigit = true := by
  interval_cases d <;> decide

theorem decDigitChar_toNat {d : Nat} (h : d < 10) :
    (decDigitChar d).toNat = 48 + d := by
  interval_cases d <;> decide

theorem natToDigitsAux_all_digits :
    ∀ fuel n, (natToDigitsAux fuel n).all Char.isDigit = true := by
  intro fuel
  induction fuel with
  | zero => intro n; rfl
  | succ fuel ih =>
    intro n
    rw [natToDigitsAux]
    split
    · rfl
    · rw [List.all_append]
      simp only [ih, List.all_cons, List.all_nil, Bool.and_true, Bool.true_and]
      exact decDigitChar_isDigit (Nat.mod_lt _ (by omega))

theorem natToDigitsAux_ne_nil {fuel n : Nat} (hn : 0 < n) (hfuel : n ≤ fuel) :
    natToDigitsAux fuel n ≠ [] := by
  cases fuel with
  | zero => omega
  | succ fuel =>
    rw [natToDigitsAux]
    split
    · omega
    · simp

theorem natToDigitsAux_fold :
    ∀ fuel n, n ≤ fuel →
      (natToDigitsAux fuel n).foldl (fun a c => 10 * a + (c.toNat - 48)) 0 = n := by
  intro fuel
  induction fuel with
  | zero => intro n h; interval_cases n; rfl
  | succ fuel ih =>
    intro n h
    rw [natToDigitsAux]
    split
    · simpa using (by omega : 0 = n)
    · rw [List.foldl_append]
      have hdiv : n / 10 ≤ fuel := by
        have : n / 10 < n := Nat.div_lt_self (by omega) (by omega)
        omega
      rw [ih (n / 10) hdiv]
      simp only [List.foldl_cons, List.foldl_nil]
      rw [decDigitChar_toNat (Nat.mod_lt _ (by omega))]
      omega

theorem natToDecChars_all_digits (n : Nat) :
    (natToDecChars n).all Char.isDigit = true := by
  rw [natToDecChars]
  split
  · exact natToDigitsAux_all_digits n n
  · rfl

theorem natToDecChars_ne_nil (n : Nat) : natToDecChars n ≠ [] := by
  rw [natToDecChars]
  split
  · exact natToDigitsAux_ne_nil (by omega) le_rfl
  · simp

theorem pyIntDigits_natToDecChars (n : Nat) :
    pyIntDigits (natToDecChars n) = some n := by
  rw [pyIntDigits, if_pos ⟨natToDecChars_ne_nil n, natToDecChars_all_digits n⟩]
  rw [natToDecChars]
  split
  · exact congrArg some (natToDigitsAux_fold n n le_rfl)
  · rename_i hz
    rw [not_not] at hz
    subst hz
    rfl

theorem isDigit_not_whitespace {c : Char} (h : c.isDigit = true) :
    c.isWhitespace = false := by
  rw [Char.isWhitespace]
  have hs : ¬ c = ' ' := fun hc => by subst hc; exact absurd h (by decide)
  have ht : ¬ c = '\t' := fun hc => by subst hc; exact absurd h (by decide)
  have hr : ¬ c = '\r' := fun hc => by subst hc; exact absurd h (by decide)
  have hn : ¬ c = '\n' := fun hc => by subst hc; exact absurd h (by decide)
  simp [hs, ht, hr, hn]

theorem dropWhile_eq_self_of {p : Char → Bool} {cs : List Char}
    (h : ∀ c ∈ cs, p c = false) : cs.dropWhile p = cs := by
  cases cs with
  | nil => rfl
  | cons c rest => simp [List.dropWhile_cons, h c (List.mem_cons_self _ _)]

theorem pyStrip_of_no_whitespace {cs : List Char}
    (h : ∀ c ∈ cs, c.isWhitespace = false) : pyStrip cs = cs := by
  rw [pyStrip, dropWhile_eq_self_of h,
    dropWhile_eq_self_of (fun c hc => h c (List.mem_reverse.mp hc)),
    List.reverse_reverse]

theorem isDigit_ne_minus {c : Char} (h : c.isDigit = true) : c ≠ '-' := by
  intro hc; subst hc; exact absurd h (by decide)

theorem isDigit_ne_plus {c : Char} (h : c.isDigit = true) : c ≠ '+' := by
  intro hc; subst hc; exact absurd h (by decide)

/-- Parsing the decimal rendering of an integer recovers the integer:
`int(str(n)) = n` in the Python model. -/
theorem pyInt_intToDecString (n : Int) : pyInt (intToDecString n) = some n := by
  rw [pyInt, intToDecString]
  have hdig := natToDecChars_all_digits
  split
  · -- negative: a minus sign followed by the digits of the absolute value
    rename_i hneg
    have hstrip : pyStrip ('-' :: natToDecChars n.natAbs) =
        '-' :: natToDecChars n.natAbs := by
      apply pyStrip_of_no_whitespace
      intro c hc
      rcases List.mem_cons.mp hc with h | h
      · subst h; decide
      · exact isDigit_not_whitespace
          (by have := hdig n.natAbs; rw [List.all_eq_true] at this; exact this c h)
    rw [hstrip, pyIntChars, if_pos rfl, pyIntDigits_natToDecChars]
    simp only [Option.map_some']
    congr 1
    omega
  · -- non-negative: just the digits
    rename_i hpos
    have hall : ∀ c ∈ natToDecChars n.toNat, c.isDigit = true := by
      have := hdig n.toNat; rw [List.all_eq_true] at this; exact this
    have hstrip : pyStrip (natToDecChars n.toNat) = natToDecChars n.toNat :=
      pyStrip_of_no_whitespace (fun c hc => isDigit_not_whitespace (hall c hc))
    show pyIntChars (pyStrip (natToDecChars n.toNat)) = some n
    rw [hstrip]
    obtain ⟨c, rest, hcs⟩ : ∃ c rest, natToDecChars n.toNat = c :: rest := by
      cases h : natToDecChars n.toNat with
      | nil => exact absurd h (natToDecChars_ne_nil _)
      | cons c rest => exact ⟨c, rest, rfl⟩
    have hc : c.isDigit = true := hall c (by rw [hcs]; exact List.mem_cons_self _ _)
    rw [hcs, pyIntChars, if_neg (isDigit_ne_minus hc), if_neg (isDigit_ne_plus hc),
      ← hcs, pyIntDigits_natToDecChars]
    simp only [Option.map_some']
    congr 1
    omega

/-! ## ASCII case mapping

Models of Python `str.capitalize()` and case-insensitive matching, built on
the core ASCII `Char.toUpper` / `Char.toLower` (the fan-speed names are
plain latin words, so the ASCII mapping coincides with Python's). -/

theorem char_toNat_ofNat_of_valid {n : Nat} (h : n.isValidChar) :
    (Char.ofNat n).toNat = n := by
  rw [Char.ofNat, dif_pos h]
  rfl

theorem char_toLower_toUpper (c : Char) : c.toUpper.toLower = c.toLower := by
  by_cases h : c.toNat ≥ 97 ∧ c.toNat ≤ 122
  · have h1 : c.toUpper = Char.ofNat (c.toNat - 32) := by
      simp only [Char.toUpper]
      rw [if_pos h]
    have h2 : (Char.ofNat (c.toNat - 32)).toNat = c.toNat - 32 :=
      char_toNat_ofNat_of_valid (Or.inl (by omega))
    have h3 : (Char.ofNat (c.toNat - 32)).toLower = Char.ofNat (c.toNat - 32 + 32) := by
      simp only [Char.toLower]
      rw [h2, if_pos (by omega)]
    have h4 : c.toLower = c := by
      simp only [Char.toLower]
      rw [if_neg (by omega)]
    rw [h1, h3, h4]
    have h5 : c.toNat - 32 + 32 = c.toNat := by omega
    rw [h5, Char.ofNat_toNat]
  · have h1 : c.toUpper = c := by
      simp only [Char.toUpper]
      rw [if_neg h]
    rw [h1]

theorem char_toLower_toLower (c : Char) : c.toLower.toLower = c.toLower := by
  by_cases h : c.toNat ≥ 65 ∧ c.toNat ≤ 90
  · have h1 : c.toLower = Char.ofNat (c.toNat + 32) := by
      simp only [Char.toLower]
      rw [if_pos h]
    have h2 : (Char.ofNat (c.toNat + 32)).toNat = c.toNat + 32 :=
      char_toNat_ofNat_of_valid (Or.inl (by omega))
    rw [h1]
    simp only [Char.toLower]
    rw [h2, if_neg (by omega)]
  · have h1 : c.toLower = c := by
      simp only [Char.toLower]
      rw [if_neg h]
    rw [h1, h1]

/-- Model of Python `str.lower()` (ASCII), used to express the
case-insensitive matching contract of the fan-speed codec. -/
def pyLower (s : String) : String :=
  ⟨s.data.map Char.toLower⟩

/-- Model of Python `str.capitalize()` (ASCII): first character upper-cased,
the rest lower-cased, as used by `async_set_fan_speed`. -/
def pyCapitalize (s : String) : String :=
  match s.data with
  | [] => ⟨[]⟩
  | c :: rest => ⟨c.toUpper :: rest.map Char.toLower⟩

theorem map_toLower_idem (cs : List Char) :
    (cs.map Char.toLower).map Char.toLower = cs.map Char.toLower := by
  induction cs with
  | nil => rfl
  | cons c tail ih =>
    rw [List.map_cons, List.map_cons, char_toLower_toLower, ih]

theorem pyLower_pyCapitalize (s : String) :
    pyLower (pyCapitalize s) = pyLower s := by
  rw [pyCapitalize, pyLower, pyLower]
  cases hd : s.data with
  | nil => rfl
  | cons c rest =>
    simp only [List.map_cons]
    rw [char_toLower_toUpper, map_toLower_idem]

theorem pyCapitalize_ne_of_lower_ne {s t : String}
    (h : pyLower s ≠ pyLower t) : pyCapitalize s ≠ t := by
  intro hc
  exact h (by rw [← hc, pyLower_pyCapitalize])

theorem isDigit_toNat_bounds {c : Char} (h : c.isDigit = true) :
    48 ≤ c.toNat ∧ c.toNat ≤ 57 := by
  rw [Char.isDigit] at h
  simp only [Bool.and_eq_true, decide_eq_true_eq] at h
  exact ⟨h.1, h.2⟩

/-- A digit or minus sign survives `capitalize` as the head character, so a
rendered number never equals a fan-speed name (which starts with a letter). -/
theorem pyCapitalize_digit_head {c : Char} {rest : List Char} {t : String}
    (hc : c.isDigit = true ∨ c = '-')
    (ht : ∃ d tail, t.data = d :: tail ∧ 65 ≤ d.toNat ∧ d.toNat ≤ 90) :
    pyCapitalize ⟨c :: rest⟩ ≠ t := by
  obtain ⟨d, tail, hdata, hd1, hd2⟩ := ht
  intro he
  rw [pyCapitalize] at he
  simp only at he
  have hdd : c.toUpper :: rest.map Char.toLower = d :: tail := by
    have := congrArg String.data he
    simpa [hdata] using this
  have hhead : c.toUpper = d := (List.cons.injEq _ _ _ _ ▸ hdd).1
  have hrange : c.toNat ≤ 57 ∨ c = '-' := by
    rcases hc with h | h
    · exact Or.inl (isDigit_toNat_bounds h).2
    · exact Or.inr h
  have hcu : c.toUpper = c := by
    simp only [Char.toUpper]
    rw [if_neg]
    rcases hrange with h | h
    · omega
    · subst h
      decide
  rw [hcu] at hhead
  subst hhead
  rcases hrange with h | h
  · omega
  · subst h
    revert hd1
    decide

/-! ## Fan-speed codec

Embeds `FAN_SPEEDS`, the `fan_speed` property (decode), the
`fan_speed_list` property, and `async_set_fan_speed` (encode + command). -/

/-- The named fan-speed levels, in insertion order of the source dict. -/
def FAN_SPEEDS : List (String × Int) :=
  [("Silent", 0), ("Standard", 1), ("Medium", 2), ("Turbo", 3)]

/-- `fan_speed_list`: the names sorted by ascending device value (model of
`sorted(FAN_SPEEDS.keys(), key=lambda s: FAN_SPEEDS[s])`). -/
def fan_speed_list : List String :=
  (List.insertionSort (fun a b => a.2 ≤ b.2) FAN_SPEEDS).map Prod.fst

/-- The encode half of `async_set_fan_speed`: a capitalize-normalised lookup
against the named levels, falling back to Python `int` parsing; `none`
models the `ValueError` branch. -/
def encodeFanSpeed (s : String) : Option Int :=
  match FAN_SPEEDS.lookup (pyCapitalize s) with
  | some v => some v
  | none => pyInt s

/-- The `fan_speed` property decode: if the integer is a named level's
value, the (first) matching name; otherwise the raw integer passed through
(model of `speed in FAN_SPEEDS.values()` guarding
`[key for key, value in FAN_SPEEDS.items() if value == speed][0]`). -/
def decodeFanSpeed (speed : Int) : String ⊕ Int :=
  match (FAN_SPEEDS.filter (fun kv => kv.2 == speed)).map Prod.fst with
  | k :: _ => Sum.inl k
  | [] => Sum.inr speed

/-- `async_set_fan_speed`: on a successful encode, the `set_suction` raw
command with the encoded level; on encode failure, no command and an error
log naming the valid levels. -/
def async_set_fan_speed (s : String) :
    Option (String × List Val) × Option (List String) :=
  match encodeFanSpeed s with
  | some v => (some ("set_suction", [Val.int v]), none)
  | none => (none, some fan_speed_list)

/-! ## State decoder -/

/-- The mode-aware run-state table (`STATE_CODE_TO_STATE`, the
`custom_components` variant with codes 0-7). -/
def STATE_CODE_TO_STATE : List (Int × String) :=
  [(0, "idle"), (1, "idle"), (2, "paused"), (3, "cleaning"), (4, "returning"),
   (5, "docked"), (6, "cleaning"), (7, "cleaning")]

/-- The `state` property: look the run-state code up in the table; on a
`KeyError` log the offending code (second component `true`) and return
`None` (the host's Unknown state, modelled as `none`).  The embedding is
total: no exception escapes. -/
def state_prop (run_state : Int) : Option String × Bool :=
  match STATE_CODE_TO_STATE.lookup run_state with
  | some s => (some s, false)
  | none => (none, true)

/-! ## Operation context and the `update` poll -/

/-- The fixed property list queried by `update` (`ALL_PROPS`). -/
def ALL_PROPS : List String :=
  ["run_state", "mode", "err_state", "battary_life", "box_type", "mop_type",
   "s_time", "s_area", "suction_grade", "water_grade", "remember_map",
   "has_map", "is_mop", "has_newmap"]

/-- The per-device mutable context of `MiroboVacuum2`: the cached snapshot
(`vacuum_state`, as the keyed zip the source builds), the availability flag
and the cached last clean point. -/
structure Ctx where
  vacuum_state : Option (List (String × Int))
  available : Bool
  last_clean_point : Option (Int × Int)
deriving DecidableEq, Repr

/-- Outcome of the `get_prop` raw call inside `update`: a positional
response list, or one of the two caught fault kinds (`OSError`,
`DeviceException`). -/
inductive FetchResult where
  | ok (response : List Int)
  | transportFault
  | deviceFault
deriving DecidableEq, Repr

/-- `update`: on success replace the snapshot wholesale by
`dict(zip(ALL_PROPS, state))` and set availability; on either caught fault
only log — the context is left untouched. -/
def update (ctx : Ctx) (r : FetchResult) : Ctx :=
  match r with
  | .ok response =>
    { ctx with vacuum_state := some (ALL_PROPS.zip response), available := true }
  | .transportFault => ctx
  | .deviceFault => ctx

/-! ## The `_try_command` fault barrier -/

/-- Outcome of one raw command call. Modelled from the spec: the `miio`
device library (not part of this repository) signals both external fault
kinds — the transport/connectivity fault and the device-protocol fault — as
the `DeviceException` that `_try_command` catches. -/
inductive RawOutcome where
  | ok
  | transportFault
  | protocolFault
deriving DecidableEq, Repr

/-- `_try_command`: returns `(result, errorLogged)`.  A successful call
yields `true` with no log; either fault kind is converted to `false` with
the operation-specific message logged.  Totality of the function models
that neither fault propagates to the caller. -/
def try_command (outcome : RawOutcome) : Bool × Bool :=
  match outcome with
  | .ok => (true, false)
  | .transportFault => (false, true)
  | .protocolFault => (false, true)

/-! ## Mode-aware command encoder -/

/-- The `actionMode` computed in the room-cleaning (else) branch of
`async_start` / `async_pause`. -/
def actionModeOf (mode is_mop : Int) : Int :=
  if mode = 2 then 2 else if is_mop = 2 then 3 else is_mop

/-- The non-point branch of `async_start`. -/
def start_room_branch (mode is_mop : Int) : String × List Val :=
  if mode = 3 then ("set_mode", [Val.int 3, Val.int 1])
  else ("set_mode_withroom",
    [Val.int (actionModeOf mode is_mop), Val.int 1, Val.int 0])

/-- `async_start`: the raw command emitted for a start request, given the
snapshot fields `mode` and `is_mop` and the cached last clean point. -/
def async_start (mode is_mop : Int) (lastPoint : Option (Int × Int)) :
    String × List Val :=
  match lastPoint with
  | some p =>
    if mode = 4 then ("set_pointclean", [Val.int 1, Val.int p.1, Val.int p.2])
    else start_room_branch mode is_mop
  | none => start_room_branch mode is_mop

/-- The non-point branch of `async_pause`. -/
def pause_room_branch (mode is_mop : Int) : String × List Val :=
  if mode = 3 then ("set_mode", [Val.int 3, Val.int 3])
  else ("set_mode_withroom",
    [Val.int (actionModeOf mode is_mop), Val.int 3, Val.int 0])

/-- `async_pause`: the raw command emitted for a pause request. -/
def async_pause (mode is_mop : Int) (lastPoint : Option (Int × Int)) :
    String × List Val :=
  match lastPoint with
  | some p =>
    if mode = 4 then ("set_pointclean", [Val.int 3, Val.int p.1, Val.int p.2])
    else pause_room_branch mode is_mop
  | none => pause_room_branch mode is_mop

/-- `async_stop`: returns the new cached point, the raw command, and the
`_try_command` outcome under the device oracle `dev`.  In the `mode == 4`
branch the cached point is assigned `None` before the command is attempted,
so the new point never depends on the command result. -/
def async_stop (mode : Int) (lastPoint : Option (Int × Int))
    (dev : String → List Val → Bool) :
    Option (Int × Int) × (String × List Val) × Bool :=
  let step :=
    if mode = 3 then (lastPoint, ("set_mode", [Val.int 3, Val.int 0]))
    else if mode = 4 then
      (none, ("set_pointclean", [Val.int 0, Val.int 0, Val.int 0]))
    else (lastPoint, ("set_mode", [Val.int 0]))
  (step.1, step.2, dev step.2.1 step.2.2)

/-! ## Zone and point cleaning -/

/-- One zone entry: the underscore-join of the running index, a fixed `0`,
and the corners of the zone tuple `(x1, y2, x2, y1)` expanded in the order
`x1, y1, x1, y2, x2, y2, x2, y1` (the exact list built by
`async_clean_zone`). -/
def zoneEntry (i : Nat) (z : Int × Int × Int × Int) : String :=
  match z with
  | (x1, y2, x2, y1) =>
    String.intercalate "_"
      (([(i : Int), 0, x1, y1, x1, y2, x2, y2, x2, y1]).map intToDecString)

/-- The entry-building loop of `async_clean_zone`: for each zone the entry
string is computed once from the current counter, then appended `repeats`
times while the counter is incremented each time. -/
def cleanZoneLoop : List (Int × Int × Int × Int) → Nat → Nat → Nat × List String
  | [], i, _ => (i, [])
  | z :: rest, i, repeats =>
    let res := zoneEntry i z
    let next := cleanZoneLoop rest (i + repeats) repeats
    (next.1, List.replicate repeats res ++ next.2)

/-- The `set_zone` parameter built by `async_clean_zone`: the final counter
prepended to the accumulated entry strings. -/
def async_clean_zone_result (zone : List (Int × Int × Int × Int))
    (repeats : Nat) : List Val :=
  let p := cleanZoneLoop zone 0 repeats
  Val.int (p.1 : Int) :: p.2.map Val.str

/-- `async_clean_point`: caches the point, then issues `set_uploadmap [0]`
and — only if that succeeded — `set_pointclean [1, x, y]`; returns the new
context, the chained boolean outcome, and the issued-command trace. -/
def async_clean_point (ctx : Ctx) (dev : String → List Val → Bool)
    (point : Int × Int) : Ctx × Bool × List (String × List Val) :=
  let ctx2 := { ctx with last_clean_point := some point }
  let cmd1 : String × List Val := ("set_uploadmap", [Val.int 0])
  let cmd2 : String × List Val :=
    ("set_pointclean", [Val.int 1, Val.int point.1, Val.int point.2])
  if dev cmd1.1 cmd1.2 then (ctx2, dev cmd2.1 cmd2.2, [cmd1, cmd2])
  else (ctx2, false, [cmd1])

/-! ## Claims -/

/-- C2: with `mode == 4` and a cached point `(px, py)`, `start` emits
exactly `set_pointclean [1, px, py]` and `pause` emits
`set_pointclean [3, px, py]`; `stop` with `mode == 4` emits
`set_pointclean [0, 0, 0]` and clears the cached point; a subsequent
`start` with mode still 4 but no cached point does not use the point-clean
path and falls through to the room/edge branch
(`set_mode_withroom [actionMode, 1, 0]`, since `mode 4 ≠ 3`). -/
theorem point_mode_protocol (is_mop px py : Int) (lp : Option (Int × Int))
    (dev : String → List Val → Bool) :
    async_start 4 is_mop (some (px, py)) =
      ("set_pointclean", [Val.int 1, Val.int px, Val.int py]) ∧
    async_pause 4 is_mop (some (px, py)) =
      ("set_pointclean", [Val.int 3, Val.int px, Val.int py]) ∧
    (async_stop 4 lp dev).1 = none ∧
    (async_stop 4 lp dev).2.1 =
      ("set_pointclean", [Val.int 0, Val.int 0, Val.int 0]) ∧
    async_start 4 is_mop none =
      ("set_mode_withroom",
        [Val.int (actionModeOf 4 is_mop), Val.int 1, Val.int 0]) := by
  refine ⟨?_, ?_, ?_, ?_, ?_⟩ <;>
    simp [async_start, async_pause, async_stop, start_room_branch]

/-- C3 counterexample: the claim says a failed refresh sets the
availability flag to false, but `update` leaves `_available` untouched on
either caught fault — from an available context a transport fault keeps
availability `true`. -/
theorem update_failure_availability_cex :
    (update ⟨some [("run_state", 5)], true, none⟩
        FetchResult.transportFault).available ≠ false := by
  decide

/-- C3 (amended): on success the snapshot is replaced wholesale by the
positional zip of `ALL_PROPS` with the response and availability is set
`true`; on either caught fault the whole context — snapshot and
availability flag alike — is left untouched, and no exception propagates
(the embedding is total). -/
theorem update_contract :
    (∀ (ctx : Ctx) (resp : List Int),
      update ctx (FetchResult.ok resp) =
        { vacuum_state := some (ALL_PROPS.zip resp), available := true,
          last_clean_point := ctx.last_clean_point }) ∧
    (∀ ctx : Ctx,
      update ctx FetchResult.transportFault = ctx ∧
      update ctx FetchResult.deviceFault = ctx) :=
  ⟨fun _ _ => rfl, fun _ => ⟨rfl, rfl⟩⟩

/-- C4: every run-state code in the version-specific table decodes to
exactly the mapped state with nothing logged; every code outside the table
decodes to `none` (Python `None`, the host's Unknown state) with the
offending code logged — and the decode is a total function, so it never
raises. -/
theorem run_state_decode :
    (∀ (c : Int) (s : String), (c, s) ∈ STATE_CODE_TO_STATE →
      state_prop c = (some s, false)) ∧
    (∀ c : Int, c ∉ STATE_CODE_TO_STATE.map Prod.fst →
      state_prop c = (none, true)) := by
  constructor
  · intro c s h
    have hall : ∀ p ∈ STATE_CODE_TO_STATE, state_prop p.1 = (some p.2, false) := by
      decide
    exact hall (c, s) h
  · intro c h
    simp only [STATE_CODE_TO_STATE, List.map_cons, List.map_nil, List.mem_cons,
      List.not_mem_nil, or_false, not_or] at h
    obtain ⟨h0, h1, h2, h3, h4, h5, h6, h7⟩ := h
    have hl : STATE_CODE_TO_STATE.lookup c = none := by
      simp [STATE_CODE_TO_STATE, List.lookup,
        beq_eq_false_iff_ne.mpr h0, beq_eq_false_iff_ne.mpr h1,
        beq_eq_false_iff_ne.mpr h2, beq_eq_false_iff_ne.mpr h3,
        beq_eq_false_iff_ne.mpr h4, beq_eq_false_iff_ne.mpr h5,
        beq_eq_false_iff_ne.mpr h6, beq_eq_false_iff_ne.mpr h7]
    rw [state_prop, hl]

/-- C4 witness: code 6 is mapped to cleaning; code 9 is outside the table
and decodes to the Unknown value with a log. -/
theorem run_state_decode_witness :
    state_prop 6 = (some "cleaning", false) ∧ state_prop 9 = (none, true) :=
  ⟨run_state_decode.1 6 "cleaning" (by decide),
   run_state_decode.2 9 (by decide)⟩

/-- C5: in the room-cleaning (else) branch, `actionMode` is 2 when
`mode == 2`, else 3 when `is_mop == 2`, else `is_mop` itself; consequently
`start` with `mode = 0, is_mop = 2` emits exactly
`set_mode_withroom [3, 1, 0]` (for any cached-point state, since mode 0
never takes the point path). -/
theorem action_mode_derivation :
    (∀ is_mop : Int, actionModeOf 2 is_mop = 2) ∧
    (∀ mode : Int, mode ≠ 2 → actionModeOf mode 2 = 3) ∧
    (∀ mode is_mop : Int, mode ≠ 2 → is_mop ≠ 2 →
      actionModeOf mode is_mop = is_mop) ∧
    (∀ lp : Option (Int × Int),
      async_start 0 2 lp =
        ("set_mode_withroom", [Val.int 3, Val.int 1, Val.int 0])) := by
  refine ⟨?_, ?_, ?_, ?_⟩
  · intro m; simp [actionModeOf]
  · intro mode h; simp [actionModeOf, h]
  · intro mode is_mop h1 h2; simp [actionModeOf, h1, h2]
  · intro lp; cases lp <;> simp [async_start, start_room_branch, actionModeOf]

/-- C5 witness: the derivation applied at concrete modes, and the concrete
`start` emission for `mode = 0, is_mop = 2`. -/
theorem action_mode_derivation_witness :
    actionModeOf 2 0 = 2 ∧ actionModeOf 0 2 = 3 ∧ actionModeOf 0 1 = 1 ∧
    async_start 0 2 none =
      ("set_mode_withroom", [Val.int 3, Val.int 1, Val.int 0]) :=
  ⟨action_mode_derivation.1 0,
   action_mode_derivation.2.1 0 (by decide),
   action_mode_derivation.2.2.1 0 1 (by decide) (by decide),
   action_mode_derivation.2.2.2 none⟩

/-- C6: `clean_point` first caches the attempted point; `set_uploadmap [0]`
is issued, and `set_pointclean [1, x, y]` is issued only if it succeeded —
on `set_uploadmap` failure the trace stops there and the chained outcome is
`false`, while the cached point is still the attempted one. -/
theorem clean_point_contract (ctx : Ctx) (dev : String → List Val → Bool)
    (p : Int × Int) :
    (async_clean_point ctx dev p).1 =
      { ctx with last_clean_point := some p } ∧
    (dev "set_uploadmap" [Val.int 0] = false →
      (async_clean_point ctx dev p).2.2 = [("set_uploadmap", [Val.int 0])] ∧
      (async_clean_point ctx dev p).2.1 = false) ∧
    (dev "set_uploadmap" [Val.int 0] = true →
      (async_clean_point ctx dev p).2.2 =
        [("set_uploadmap", [Val.int 0]),
         ("set_pointclean", [Val.int 1, Val.int p.1, Val.int p.2])] ∧
      (async_clean_point ctx dev p).2.1 =
        dev "set_pointclean" [Val.int 1, Val.int p.1, Val.int p.2]) := by
  by_cases h : dev "set_uploadmap" [Val.int 0] <;>
    simp [async_clean_point, h]

/-- C6 witness: a device that fails every call — the point is cached, only
`set_uploadmap` is in the trace, and the outcome is failure. -/
theorem clean_point_contract_witness :
    (async_clean_point ⟨none, false, none⟩ (fun _ _ => false) (150, 200)).1 =
      ⟨none, false, some (150, 200)⟩ ∧
    (async_clean_point ⟨none, false, none⟩ (fun _ _ => false) (150, 200)).2.2 =
      [("set_uploadmap", [Val.int 0])] ∧
    (async_clean_point ⟨none, false, none⟩ (fun _ _ => false) (150, 200)).2.1 =
      false := by
  obtain ⟨h1, h2, h3⟩ :=
    clean_point_contract ⟨none, false, none⟩ (fun _ _ => false) (150, 200)
  exact ⟨h1, (h2 rfl).1, (h2 rfl).2⟩

/-- C7: both external fault kinds are caught at the single raw call and
converted into a `false` result with the operation-specific message logged;
`try_command` is a total function, so neither fault propagates to the
caller of the operation. -/
theorem try_command_fault_barrier (o : RawOutcome) (h : o ≠ RawOutcome.ok) :
    try_command o = (false, true) := by
  cases o with
  | ok => exact absurd rfl h
  | transportFault => rfl
  | protocolFault => rfl

/-- C7 witness: the barrier applied to each fault kind. -/
theorem try_command_fault_barrier_witness :
    try_command RawOutcome.transportFault = (false, true) ∧
    try_command RawOutcome.protocolFault = (false, true) :=
  ⟨try_command_fault_barrier RawOutcome.transportFault (by decide),
   try_command_fault_barrier RawOutcome.protocolFault (by decide)⟩

/-- C10: `stop` with `mode == 4` assigns the cached point `None` before the
`set_pointclean [0,0,0]` command is attempted: the new cached point is
`none` under every device oracle — in particular when the command fails —
while the command outcome is exactly the oracle's answer. -/
theorem stop_clears_point_unconditionally (lp : Option (Int × Int))
    (dev : String → List Val → Bool) :
    (async_stop 4 lp dev).1 = none ∧
    (async_stop 4 lp dev).2.1 =
      ("set_pointclean", [Val.int 0, Val.int 0, Val.int 0]) ∧
    (async_stop 4 lp dev).2.2 =
      dev "set_pointclean" [Val.int 0, Val.int 0, Val.int 0] := by
  refine ⟨?_, ?_, ?_⟩ <;> simp [async_stop]

/-- C9: an input matching no named level case-insensitively that also fails
numeric parsing produces no device command: `async_set_fan_speed` returns
no command and logs the error naming the valid levels. -/
theorem set_fan_speed_invalid_input (s : String)
    (hname : ∀ name ∈ FAN_SPEEDS.map Prod.fst, pyLower s ≠ pyLower name)
    (hparse : pyInt s = none) :
    async_set_fan_speed s = (none, some fan_speed_list) := by
  have hcap : ∀ name ∈ FAN_SPEEDS.map Prod.fst, pyCapitalize s ≠ name :=
    fun name hm => pyCapitalize_ne_of_lower_ne (hname name hm)
  have h0 : (pyCapitalize s == "Silent") = false :=
    beq_eq_false_iff_ne.mpr (hcap _ (by decide))
  have h1 : (pyCapitalize s == "Standard") = false :=
    beq_eq_false_iff_ne.mpr (hcap _ (by decide))
  have h2 : (pyCapitalize s == "Medium") = false :=
    beq_eq_false_iff_ne.mpr (hcap _ (by decide))
  have h3 : (pyCapitalize s == "Turbo") = false :=
    beq_eq_false_iff_ne.mpr (hcap _ (by decide))
  have he : encodeFanSpeed s = none := by
    rw [encodeFanSpeed]
    rw [show FAN_SPEEDS.lookup (pyCapitalize s) = none from by
      simp [FAN_SPEEDS, List.lookup, h0, h1, h2, h3]]
    exact hparse
  rw [async_set_fan_speed, he]

/-- C9 witness: a word that is no level name and no number. -/
theorem set_fan_speed_invalid_input_witness :
    async_set_fan_speed "maximal" = (none, some fan_speed_list) :=
  set_fan_speed_invalid_input "maximal" (by decide) (by decide)

/-- The decimal rendering of an integer starts with a digit or a minus
sign. -/
theorem intToDecString_head (n : Int) :
    ∃ c rest, (intToDecString n).data = c :: rest ∧
      (c.isDigit = true ∨ c = '-') := by
  rw [intToDecString]
  split
  · exact ⟨'-', natToDecChars n.natAbs, rfl, Or.inr rfl⟩
  · obtain ⟨c, rest, h⟩ : ∃ c rest, natToDecChars n.toNat = c :: rest := by
      cases h : natToDecChars n.toNat with
      | nil => exact absurd h (natToDecChars_ne_nil _)
      | cons c rest => exact ⟨c, rest, rfl⟩
    refine ⟨c, rest, by simp [h], Or.inl ?_⟩
    have hall := natToDecChars_all_digits n.toNat
    rw [List.all_eq_true] at hall
    exact hall c (by rw [h]; exact List.mem_cons_self _ _)

/-- The capitalize-normalised lookup never matches a rendered number. -/
theorem lookup_intToDecString_none (n : Int) :
    FAN_SPEEDS.lookup (pyCapitalize (intToDecString n)) = none := by
  obtain ⟨c, rest, hdata, hc⟩ := intToDecString_head n
  have hmk : intToDecString n = ⟨c :: rest⟩ := by
    rw [← hdata]
  have hne : ∀ t : String,
      (∃ d tail, t.data = d :: tail ∧ 65 ≤ d.toNat ∧ d.toNat ≤ 90) →
      (pyCapitalize (intToDecString n) == t) = false := by
    intro t ht
    exact beq_eq_false_iff_ne.mpr (hmk ▸ pyCapitalize_digit_head hc ht)
  have h0 := hne "Silent" ⟨'S', ['i','l','e','n','t'], by decide, by decide, by decide⟩
  have h1 := hne "Standard"
    ⟨'S', ['t','a','n','d','a','r','d'], by decide, by decide, by decide⟩
  have h2 := hne "Medium" ⟨'M', ['e','d','i','u','m'], by decide, by decide, by decide⟩
  have h3 := hne "Turbo" ⟨'T', ['u','r','b','o'], by decide, by decide, by decide⟩
  simp [FAN_SPEEDS, List.lookup, h0, h1, h2, h3]

/-- C8: decoding the value obtained by encoding a canonical name yields the
name back; and for every integer outside the canonical value set, encoding
its rendering yields the integer itself, which decodes back to the raw
integer passed through verbatim. -/
theorem fan_speed_roundtrip :
    (∀ name ∈ FAN_SPEEDS.map Prod.fst, ∀ v : Int,
      encodeFanSpeed name = some v → decodeFanSpeed v = Sum.inl name) ∧
    (∀ n : Int, n ∉ FAN_SPEEDS.map Prod.snd →
      encodeFanSpeed (intToDecString n) = some n ∧
      decodeFanSpeed n = Sum.inr n) := by
  constructor
  · intro name hm v hv
    simp only [FAN_SPEEDS, List.map_cons, List.map_nil, List.mem_cons,
      List.not_mem_nil, or_false] at hm
    rcases hm with rfl | rfl | rfl | rfl
    · rw [show encodeFanSpeed "Silent" = some 0 from by decide] at hv
      injection hv with h
      subst h
      decide
    · rw [show encodeFanSpeed "Standard" = some 1 from by decide] at hv
      injection hv with h
      subst h
      decide
    · rw [show encodeFanSpeed "Medium" = some 2 from by decide] at hv
      injection hv with h
      subst h
      decide
    · rw [show encodeFanSpeed "Turbo" = some 3 from by decide] at hv
      injection hv with h
      subst h
      decide
  · intro n hn
    simp only [FAN_SPEEDS, List.map_cons, List.map_nil, List.mem_cons,
      List.not_mem_nil, or_false, not_or] at hn
    obtain ⟨g0, g1, g2, g3⟩ := hn
    constructor
    · rw [encodeFanSpeed, lookup_intToDecString_none]
      exact pyInt_intToDecString n
    · rw [decodeFanSpeed]
      rw [show FAN_SPEEDS.filter (fun kv => kv.2 == n) = [] from by
        simp [FAN_SPEEDS, List.filter,
          beq_eq_false_iff_ne.mpr (Ne.symm g0), beq_eq_false_iff_ne.mpr (Ne.symm g1),
          beq_eq_false_iff_ne.mpr (Ne.symm g2), beq_eq_false_iff_ne.mpr (Ne.symm g3)]]
      rfl

/-- C8 witness: the canonical name Silent round-trips through level 0, and
the out-of-range level 7 passes through verbatim. -/
theorem fan_speed_roundtrip_witness :
    decodeFanSpeed 0 = Sum.inl "Silent" ∧
    (encodeFanSpeed (intToDecString 7) = some 7 ∧
     decodeFanSpeed 7 = Sum.inr 7) :=
  ⟨fan_speed_roundtrip.1 "Silent" (by decide) 0 (by decide),
   fan_speed_roundtrip.2 7 (by decide)⟩

/-- The counter of the zone loop advances by `repeats` per zone. -/
theorem cleanZoneLoop_fst (r : Nat) :
    ∀ (zs : List (Int × Int × Int × Int)) (j : Nat),
      (cleanZoneLoop zs j r).1 = j + r * zs.length := by
  intro zs
  induction zs with
  | nil => intro j; simp [cleanZoneLoop]
  | cons z rest ih =>
    intro j
    rw [cleanZoneLoop]
    simp only [ih (j + r), List.length_cons]
    ring

/-- The entries of the zone loop: the zone at position `k` contributes
`r` copies of the single entry rendered with leading index `j + r * k`. -/
theorem cleanZoneLoop_snd (r : Nat) :
    ∀ (zs : List (Int × Int × Int × Int)) (j : Nat),
      (cleanZoneLoop zs j r).2 =
        (List.range zs.length).flatMap
          (fun k => List.replicate r
            (zoneEntry (j + r * k) (zs.getD k (0, 0, 0, 0)))) := by
  intro zs
  induction zs with
  | nil => intro j; simp [cleanZoneLoop]
  | cons z rest ih =>
    intro j
    rw [cleanZoneLoop]
    simp only [List.length_cons]
    rw [List.range_succ_eq_map, List.flatMap_cons, List.flatMap_map]
    simp only [Nat.mul_zero, Nat.add_zero, List.getD_cons_zero]
    congr 1
    rw [ih (j + r)]
    refine List.flatMap_congr (fun k _ => ?_)
    rw [List.getD_cons_succ]
    have harith : j + r + r * k = j + r * k.succ := by
      rw [Nat.mul_succ]
      ring
    rw [harith]

/-- C1 counterexample: the code computes each zone's entry string once,
before the repeat loop, so `clean_zone([(0,0,100,100)], repeats=2)`
produces two identical entries — and with the tuple unpacked as
`(x1, y2, x2, y1)` the corner expansion renders
`0_0_0_100_0_0_100_0_100_100`, not the claimed
`0_0_0_0_0_100_100_100_100_0` / `1_0_0_0_0_100_100_100_100_0`. -/
theorem clean_zone_claim_cex :
    async_clean_zone_result [(0, 0, 100, 100)] 2 =
      [Val.int 2, Val.str "0_0_0_100_0_0_100_0_100_100",
       Val.str "0_0_0_100_0_0_100_0_100_100"] ∧
    async_clean_zone_result [(0, 0, 100, 100)] 2 ≠
      [Val.int 2, Val.str "0_0_0_0_0_100_100_100_100_0",
       Val.str "1_0_0_0_0_100_100_100_100_0"] := by
  constructor <;> decide

/-- C1 (amended): the `set_zone` parameter prepends the total entry count
`repeats * len(zone)`; the zone at position `k` contributes `repeats`
identical copies (not per-repeat running indices) of one entry whose
leading index is the count of entries generated before it, `repeats * k`,
followed by the fixed `0` and the corners of `(x1, y2, x2, y1)` expanded as
`x1, y1, x1, y2, x2, y2, x2, y1`. -/
theorem clean_zone_encoding (zone : List (Int × Int × Int × Int))
    (repeats : Nat) :
    async_clean_zone_result zone repeats =
      Val.int ((repeats * zone.length : Nat)) ::
        (List.range zone.length).flatMap
          (fun k => List.replicate repeats
            (Val.str (zoneEntry (repeats * k) (zone.getD k (0, 0, 0, 0))))) := by
  rw [async_clean_zone_result]
  simp only [cleanZoneLoop_fst, cleanZoneLoop_snd, Nat.zero_add,
    List.map_flatMap, List.map_replicate]
